import Mathlib

/-!
Shallow embedding of the responder event subsystem:
`ResponderCache.js`, `GestureCache.js` and `ResponderEventPlugin.js`
(src/src/renderers/shared/stack/event/eventPlugins/), together with the
`GesturePropagators.js` walks they call.

Instances, platform tags and nodes are all modelled as natural numbers with
the resolution maps (`getTagFromInstance`, `getInstanceFromTag`,
`getNodeFromInstance`, `getTagFromNode`) as the identity, which satisfies the
consistency contract `tagFromInstance (instanceFromTag t) = t`.

JS objects used as integer-keyed dictionaries are modelled as association
lists.  Mutable gesture objects shared between the three cache indices are
modelled as a heap: a store from gesture id to record, with the indices
holding ids.  A JS `TypeError` (property access on `undefined`) is modelled
as `Except.error`.
-/

/-- Association-list lookup (JS `obj[key]`, `none` for a missing key). -/
def look {α : Type} (m : List (Nat × α)) (k : Nat) : Option α :=
  match m with
  | [] => none
  | (k', v) :: rest => if k' = k then some v else look rest k

/-- Association-list assignment (JS `obj[key] = v`: overwrite in place, or
append a fresh key). -/
def aset {α : Type} (m : List (Nat × α)) (k : Nat) (v : α) : List (Nat × α) :=
  match m with
  | [] => [(k, v)]
  | (k', v') :: rest => if k' = k then (k, v) :: rest else (k', v') :: aset rest k v

/-- Association-list deletion (JS `delete obj[key]`). -/
def aerase {α : Type} (m : List (Nat × α)) (k : Nat) : List (Nat × α) :=
  match m with
  | [] => []
  | (k', v') :: rest => if k' = k then aerase rest k else (k', v') :: aerase rest k

/-- Modelled from the spec: the low-level event kinds this subsystem
distinguishes.  The `EventPluginUtils` module that classifies kinds is not
under src/; the spec's glossary partitions kinds into start-like, move-like
and end-like, with `topScroll` and `topSelectionChange` as the two extra
kinds the negotiation engine inspects. -/
inductive TopLevelType where
  | topTouchStart
  | topTouchMove
  | topTouchEnd
  | topTouchCancel
  | topScroll
  | topSelectionChange
  deriving DecidableEq, Repr

/-- Modelled from the spec: `EventPluginUtils.isStartish` (module not under
src/); start-like kinds begin a touch's lifecycle. -/
def isStartish (t : TopLevelType) : Bool := t == .topTouchStart

/-- Modelled from the spec: `EventPluginUtils.isMoveish` (module not under
src/). -/
def isMoveish (t : TopLevelType) : Bool := t == .topTouchMove

/-- Modelled from the spec: `EventPluginUtils.isEndish` (module not under
src/); end-like kinds end a touch's lifecycle, by plain end or by cancel. -/
def isEndish (t : TopLevelType) : Bool :=
  t == .topTouchEnd || t == .topTouchCancel

/-- A native touch point: `{identifier, target}` plus platform payload the
core never reads. -/
structure Touch where
  identifier : Nat
  target : Nat
  deriving DecidableEq, Repr

/-- The environment of external services (spec section 6): the
parent-lookup primitive of the tree, and the registered handlers the
dispatch executors invoke.  `ancestors i` is the strict ancestor chain of
instance `i`, nearest ancestor first; the spec requires the walk to
terminate at the tree root, which the list form makes structural.
A listener map returns `none` when no handler is registered and
`some b` when the registered handler returns `b`. -/
structure Env where
  ancestors : Nat → List Nat
  shouldSetCapture : TopLevelType → Nat → Option Bool
  shouldSetBubble : TopLevelType → Nat → Option Bool
  termListener : Nat → Option Bool
  grantListener : Nat → Option Bool

/-- The inclusive ancestor chain of an instance, the instance itself first. -/
def inclusiveChain (env : Env) (i : Nat) : List Nat :=
  i :: env.ancestors i

/-- A `globalHandler.onChange(previous, next, blockHostResponder)`
notification recorded by the Registry; `release` passes no third argument. -/
structure RCChange where
  prev : Option Nat
  next : Option Nat
  block : Option Bool
  deriving DecidableEq, Repr

/-- State of `ResponderCache.js`: the tag-keyed cache of active responders,
the log of observer notifications, and the warnings the module reports
(none of its functions ever report one). -/
structure RCState where
  cache : List (Nat × Nat)
  log : List RCChange
  warnings : List String
  deriving DecidableEq, Repr

namespace ResponderCache

/-- `ResponderCache.grant`: record `inst` under its tag and notify the
global handler with `(null, inst, blockHostResponder)`. -/
def grant (inst : Nat) (blockHostResponder : Bool) (s : RCState) : RCState :=
  { s with
    cache := aset s.cache inst inst
    log := s.log ++ [⟨none, some inst, some blockHostResponder⟩] }

/-- `ResponderCache.release`: delete the entry under the instance's tag
(a no-op delete when absent) and notify the global handler with
`(inst, null)` unconditionally. -/
def release (inst : Nat) (s : RCState) : RCState :=
  { s with
    cache := aerase s.cache inst
    log := s.log ++ [⟨some inst, none, none⟩] }

/-- `ResponderCache.findAncestor`: walk `target` and its ancestors until one
has a cache entry; return that instance, or `none` at the root. -/
def findAncestor (env : Env) (s : RCState) (target : Nat) : Option Nat :=
  (inclusiveChain env target).find? (fun tag => (look s.cache tag).isSome)

end ResponderCache

/-- Modelled from the spec: the `TouchHistory` module is not under src/; the
spec only requires that a gesture's history is an ordered log whose
`numberActiveTouches` counts the touches currently active for the gesture
(grown by start-like records, shrunk by end-like records). -/
structure TouchHistory where
  numberActiveTouches : Nat
  deriving DecidableEq, Repr

/-- Modelled from the spec: `touchHistory.recordTouchEvent(type, touches)`
adjusts `numberActiveTouches` by the number of recorded changed touches for
start-like and end-like kinds and leaves it unchanged otherwise. -/
def recordTouchEvent (t : TopLevelType) (changed : List Touch)
    (h : TouchHistory) : TouchHistory :=
  if isStartish t then ⟨h.numberActiveTouches + changed.length⟩
  else if isEndish t then ⟨h.numberActiveTouches - changed.length⟩
  else h

/-- A gesture record: current target tag, the identifier-keyed touch map,
the per-batch changed-touch list and the touch history. -/
structure Gesture where
  target : Nat
  touchMap : List (Nat × Touch)
  changedTouches : List Touch
  touchHistory : TouchHistory
  deriving DecidableEq, Repr

/-- State of `GestureCache.js`.  `gestures` is the heap of gesture objects
keyed by an allocation id (`nextId` is the next fresh id); `activeGestures`,
`gesturesByTouch` and `gesturesByTarget` are the module's three indices,
holding heap ids.  The heap never forgets an id: a removed gesture object
still exists while an index (erroneously) points at it, as in JS. -/
structure GCState where
  nextId : Nat
  gestures : List (Nat × Gesture)
  activeGestures : List Nat
  gesturesByTouch : List (Nat × Nat)
  gesturesByTarget : List (Nat × Nat)
  warnings : List String
  deriving DecidableEq, Repr

/-- The empty gesture cache. -/
def gcEmpty : GCState := ⟨0, [], [], [], [], []⟩

namespace GestureCache

/-- Replace the heap record of gesture `gid`. -/
def setG (s : GCState) (gid : Nat) (g : Gesture) : GCState :=
  { s with gestures := aset s.gestures gid g }

/-- Mutate the heap record of gesture `gid` in place. -/
def updateG (s : GCState) (gid : Nat) (f : Gesture → Gesture) : GCState :=
  match look s.gestures gid with
  | none => s
  | some g => setG s gid (f g)

/-- `removeGesture`: splice the gesture out of `activeGestures` and delete
its current target's `gesturesByTarget` entry.  The heap entry remains, as
the JS object does.  (`gesturesByTouch` is deliberately untouched, as in the
source.) -/
def removeGesture (gid : Nat) (s : GCState) : GCState :=
  match look s.gestures gid with
  | none => s
  | some g =>
      { s with
        activeGestures := s.activeGestures.erase gid
        gesturesByTarget := aerase s.gesturesByTarget g.target }

/-- The batch prologue: `activeGestures.forEach(g => g.changedTouches.length = 0)`. -/
def clearChanged (s : GCState) : GCState :=
  s.activeGestures.foldl
    (fun s gid => updateG s gid (fun g => { g with changedTouches := [] })) s

/-- The target a starting touch attaches to: the nearest active responder
found from the touch's raw target through `ResponderCache.findAncestor`
(so a child cannot start a gesture below an active ancestor responder), or
the raw target itself when no responder is active above it. -/
def attachTarget (env : Env) (rc : RCState) (touch : Touch) : Nat :=
  match ResponderCache.findAncestor env rc touch.target with
  | some responderInst => responderInst
  | none => touch.target

/-- `attachGesture`: reuse the gesture owning the resolved target or create
one (pushed at the end of `activeGestures`, so creation order is list
order), and point `gesturesByTouch[touch.identifier]` at it. -/
def attachGesture (env : Env) (rc : RCState) (touch : Touch) (s : GCState) :
    Nat × GCState :=
  match look s.gesturesByTarget (attachTarget env rc touch) with
  | some gid =>
      (gid, { s with gesturesByTouch := aset s.gesturesByTouch touch.identifier gid })
  | none =>
      (s.nextId,
        { s with
          nextId := s.nextId + 1
          gestures := aset s.gestures s.nextId ⟨attachTarget env rc touch, [], [], ⟨0⟩⟩
          activeGestures := s.activeGestures ++ [s.nextId]
          gesturesByTarget := aset s.gesturesByTarget (attachTarget env rc touch) s.nextId
          gesturesByTouch := aset s.gesturesByTouch touch.identifier s.nextId })

/-- The first `forEach` of `touchesChanged`: associate every changed touch
with a gesture (creating one on start-like batches, else looking the touch
up), push it on that gesture's changed list, and refresh the touch map on
non-end batches.  A lookup miss on a non-start batch is the JS
`TypeError` on `undefined`. -/
def firstLoop (env : Env) (rc : RCState) (t : TopLevelType) :
    List Touch → GCState → Except String GCState
  | [], s => .ok s
  | touch :: rest, s =>
      let found : Option (Nat × GCState) :=
        if isStartish t then some (attachGesture env rc touch s)
        else (look s.gesturesByTouch touch.identifier).map (fun gid => (gid, s))
      match found with
      | none => .error "TypeError: cannot read property of undefined"
      | some (gid, s) =>
          let s := updateG s gid
            (fun g => { g with changedTouches := g.changedTouches ++ [touch] })
          let s :=
            if isEndish t then s
            else updateG s gid
              (fun g => { g with touchMap := aset g.touchMap touch.identifier touch })
          firstLoop env rc t rest s

/-- The end-batch detach `forEach`: remove each ended touch from its
gesture's map and from `gesturesByTouch` (one-directional: the gesture keeps
the touch in `changedTouches`).  A missing index entry is again a JS
`TypeError`. -/
def detachLoop : List Touch → GCState → Except String GCState
  | [], s => .ok s
  | touch :: rest, s =>
      match look s.gesturesByTouch touch.identifier with
      | none => .error "TypeError: cannot read property of undefined"
      | some gid =>
          let s := updateG s gid
            (fun g => { g with touchMap := aerase g.touchMap touch.identifier })
          let s := { s with gesturesByTouch := aerase s.gesturesByTouch touch.identifier }
          detachLoop rest s

end GestureCache

/-- The per-gesture event record the exported `touchesChanged` builds:
the gesture's current target, the touches still in its map
(`Object.values(touchMap)`), the batch's changed touches, the active-touch
count of its (just-updated) history, and the `responderIgnoreScroll` flag
copied over from the original native event.  `gid` is the heap id of the
gesture, which stands in for JS object identity. -/
structure GCEvent where
  gid : Nat
  target : Nat
  touches : List Touch
  changedTouches : List Touch
  numberActiveTouches : Nat
  responderIgnoreScroll : Bool
  deriving DecidableEq, Repr

/-- The native event handed to `extractEvents`: `touches` presence flag
(`!nativeEvent.touches` aborts extraction even when the list is empty),
the changed-touch list, and the scroll-suppression flag. -/
structure NativeEvent where
  hasTouches : Bool
  changedTouches : List Touch
  responderIgnoreScroll : Bool
  deriving DecidableEq, Repr

namespace GestureCache

/-- Build the event for one changed gesture (`touchesChanged`, result loop
body): `touches` is `Object.values(gesture.touchMap)` after ended touches
were detached. -/
def mkGCEvent (gid : Nat) (g : Gesture) (ev : NativeEvent) : GCEvent :=
  ⟨gid, g.target, g.touchMap.map Prod.snd, g.changedTouches,
    g.touchHistory.numberActiveTouches, ev.responderIgnoreScroll⟩

/-- One iteration of the result loop of the exported `touchesChanged`:
skip a gesture without changed touches (`none`), otherwise record the batch
into its history, build its event, and remove the gesture when an end-like
batch leaves its history with zero active touches. -/
def resultStep (t : TopLevelType) (ev : NativeEvent) (gid : Nat) (s : GCState) :
    Option (GCEvent × GCState) :=
  match look s.gestures gid with
  | none => none
  | some g =>
      if g.changedTouches.length = 0 then none
      else
        let g' := { g with touchHistory := recordTouchEvent t g.changedTouches g.touchHistory }
        let s := setG s gid g'
        let event := mkGCEvent gid g' ev
        let s :=
          if isEndish t && (g'.touchHistory.numberActiveTouches == 0)
          then removeGesture gid s else s
        some (event, s)

/-- The result loop of the exported `touchesChanged`
(`for (let i = activeGestures.length - 1; i >= 0; i--)`): visit the live
array backward.  The backward walk over the live array visits exactly the
reversed snapshot, because the only element ever spliced out is the one at
the current index; `ids` is that reversed snapshot. -/
def resultLoop (t : TopLevelType) (ev : NativeEvent) :
    List Nat → GCState → List GCEvent × GCState
  | [], s => ([], s)
  | gid :: rest, s =>
      match resultStep t ev gid s with
      | none => resultLoop t ev rest s
      | some (event, s) =>
          let (events, s) := resultLoop t ev rest s
          (event :: events, s)

/-- The exported `touchesChanged` (second definition in the file,
lines 217-290): clear every changed list, run the association loop, detach
ended touches, then walk `activeGestures` backward building the event
list. -/
def touchesChanged (env : Env) (rc : RCState) (t : TopLevelType)
    (ev : NativeEvent) (s : GCState) : Except String (List GCEvent × GCState) := do
  let s := clearChanged s
  let s ← firstLoop env rc t ev.changedTouches s
  let s ← if isEndish t then detachLoop ev.changedTouches s else .ok s
  return resultLoop t ev s.activeGestures.reverse s

/-- The shared body of both `targetChanged` definitions after tag
resolution: warn and stop when `oldTag` owns no gesture; merge into
`newTag`'s gesture when it has one (record the old changed touches into the
new history under this event kind, append them to the new changed list,
repoint every touch-index entry, then splice the old gesture out);
otherwise relabel the old gesture in place.  The changed-touch and
touch-map snapshots are read once up front, matching JS `forEach` /
`for...in` iteration bounds — which is what makes the exported version's
missing equal-target guard corrupt the cache when old and new coincide. -/
def targetChangedCore (t : TopLevelType) (oldTag newTag : Nat) (s : GCState) :
    GCState :=
  match look s.gesturesByTarget oldTag with
  | none => { s with warnings := s.warnings ++ ["Invalid target has no gesture"] }
  | some oldGid =>
      match look s.gestures oldGid with
      | none => s
      | some oldG =>
          match look s.gesturesByTarget newTag with
          | some newGid =>
              let s := updateG s newGid (fun g =>
                { g with touchHistory := recordTouchEvent t oldG.changedTouches g.touchHistory })
              let s := updateG s newGid (fun g =>
                { g with changedTouches := g.changedTouches ++ oldG.changedTouches })
              let s := oldG.touchMap.foldl
                (fun s p =>
                  let s := { s with gesturesByTouch := aset s.gesturesByTouch p.1 newGid }
                  updateG s newGid (fun g => { g with touchMap := aset g.touchMap p.1 p.2 }))
                s
              removeGesture oldGid s
          | none =>
              let s := updateG s oldGid (fun g => { g with target := newTag })
              { s with
                gesturesByTarget :=
                  aerase (aset s.gesturesByTarget newTag oldGid) oldTag }

/-- The exported `targetChanged` (second definition, lines 186-215): note
there is no `oldTarget == newTarget` guard. -/
def targetChanged (t : TopLevelType) (oldTarget newTarget : Nat) (s : GCState) :
    GCState :=
  targetChangedCore t oldTarget newTarget s

/-- The superseded first `targetChanged` (lines 32-60): it rejects equal
targets with a warning before anything else. -/
def targetChangedV1 (t : TopLevelType) (oldTarget newTarget : Nat) (s : GCState) :
    GCState :=
  if newTarget = oldTarget then
    { s with warnings := s.warnings ++ ["Targets cannot be equal"] }
  else targetChangedCore t oldTarget newTarget s

end GestureCache

/-- The kinds of synthetic events the plugin can return from
`extractEvents` (the vote and termination-request events are dispatched
on demand and never returned). -/
inductive SynthType where
  | responderStart
  | responderMove
  | responderEnd
  | responderRelease
  | responderTerminate
  | responderGrant
  | responderReject
  | gestureStart
  | gestureEnd
  deriving DecidableEq, Repr

/-- A synthetic event in the returned list: its kind and the instance it
was created for (the `responderInst` argument of
`ResponderSyntheticEvent.getPooled`). -/
structure SynthEvent where
  etype : SynthType
  inst : Nat
  deriving DecidableEq, Repr

/-- The whole mutable state of the plugin layer: the Registry, the gesture
cache, the module counters `trackedTouchCount` (an `Int`: the source checks
for it going negative) and `previousActiveTouches`, the log of
`GlobalInteractionHandler.onChange` notifications, and the
`console.warn`/`console.error` output of `ResponderEventPlugin.js`. -/
structure PState where
  rc : RCState
  gc : GCState
  trackedTouchCount : Int
  previousActiveTouches : Int
  interactionLog : List Int
  errors : List String
  deriving DecidableEq, Repr

namespace ResponderEventPlugin

/-- `canTriggerTransfer` (lines 400-412): a transfer can be attempted iff
the target instance exists and the event is an unsuppressed scroll, a
selection change while touches are tracked, start-like, or move-like. -/
def canTriggerTransfer (t : TopLevelType) (topLevelInst : Option Nat)
    (nativeEvent : GCEvent) (trackedTouchCount : Int) : Bool :=
  topLevelInst.isSome &&
    ((t == .topScroll && !nativeEvent.responderIgnoreScroll) ||
     (trackedTouchCount > 0 && t == .topSelectionChange) ||
     isStartish t || isMoveish t)

/-- The vote event kind implied by the incoming kind (lines 325-330):
start-like kinds vote with `startShouldSetResponder`, move-like with
`moveShouldSetResponder`, a selection change with
`selectionChangeShouldSetResponder`, anything else with
`scrollShouldSetResponder`.  The four vote kinds are indexed here by a
canonical representative of their trigger kind. -/
def voteTypeOf (t : TopLevelType) : TopLevelType :=
  if isStartish t then .topTouchStart
  else if isMoveish t then .topTouchMove
  else if t == .topSelectionChange then .topSelectionChange
  else .topScroll

/-- Modelled from the spec: the two-phase dispatch executor
(`EventPropagators` / `executeDispatchesInOrderStopAtTrue` are not under
src/).  Capture runs root-to-target, bubble target-to-root over the vote
target's inclusive chain; with `skipTarget` (an active responder exists)
the target's own handlers are skipped, so the traversal covers its strict
ancestors only.  The winner is the first instance whose handler returns
true. -/
def voteWinner (env : Env) (t : TopLevelType) (target : Nat)
    (skipTarget : Bool) : Option Nat :=
  let chain := if skipTarget then env.ancestors target else inclusiveChain env target
  let captureHit := chain.reverse.find? (fun i => env.shouldSetCapture t i == some true)
  match captureHit with
  | some i => some i
  | none => chain.find? (fun i => env.shouldSetBubble t i == some true)

/-- The termination-request outcome (lines 356):
`!hasDispatches(event) || executeDirectDispatch(event)` — no registered
listener counts as approval, otherwise the listener's return decides. -/
def shouldSwitch (env : Env) (currentInst : Nat) : Bool :=
  match env.termListener currentInst with
  | none => true
  | some b => b

/-- The tail of an approved (or uncontested) transfer (lines 374-389): when
the winner differs from the vote target, emit a `gestureEnd` walked from the
old target up to the winner and retarget the gesture cache; then grant the
winner, invoking its `responderGrant` handler directly to learn whether the
host's own responder should be blocked. -/
def proceedGrant (env : Env) (t : TopLevelType) (targetInst nextInst : Nat)
    (ps : PState) : Option (List SynthEvent) × PState :=
  let (extracted, ps) :=
    if nextInst ≠ targetInst then
      ([⟨.gestureEnd, nextInst⟩],
        { ps with gc := GestureCache.targetChanged t targetInst nextInst ps.gc })
    else ([], ps)
  let blockHostResponder := env.grantListener nextInst == some true
  (some extracted,
    { ps with rc := ResponderCache.grant nextInst blockHostResponder ps.rc })

/-- `setResponderAndExtractTransfer` (lines 316-390).  An active
ancestor-or-self responder captures the vote: the cache is retargeted to it
and it becomes the vote target, its own handlers skipped.  If no handler
votes true there is no transfer.  Otherwise a present active responder is
asked to terminate: on denial only a `responderReject` to the candidate is
returned; on approval (or absence of a listener) the previous responder is
released from the Registry and its `responderTerminate` dispatched on
demand, then the grant proceeds. -/
def setResponderAndExtractTransfer (env : Env) (t : TopLevelType)
    (targetInst0 : Nat) (ps : PState) : Option (List SynthEvent) × PState :=
  let currentInst := ResponderCache.findAncestor env ps.rc targetInst0
  let (targetInst, ps1) :=
    match currentInst with
    | some cur =>
        if cur ≠ targetInst0 then
          (cur, { ps with gc := GestureCache.targetChanged t targetInst0 cur ps.gc })
        else (targetInst0, ps)
    | none => (targetInst0, ps)
  match voteWinner env (voteTypeOf t) targetInst currentInst.isSome with
  | none => (none, ps1)
  | some nextInst =>
      match currentInst with
      | some cur =>
          if shouldSwitch env cur then
            let ps2 := { ps1 with rc := ResponderCache.release cur ps1.rc }
            proceedGrant env t targetInst nextInst ps2
          else
            (some [⟨.responderReject, nextInst⟩], ps1)
      | none => proceedGrant env t targetInst nextInst ps1

/-- `extractTouchEvents` (lines 414-461): attempt a transfer when
`canTriggerTransfer` holds, then address the nearest active responder of
the target: emit the incremental `responderStart`/`Move`/`End`, and on an
end-like kind release the Registry entry and emit `responderTerminate` (on
cancel) or `responderRelease` (when the gesture's history has no active
touches left). -/
def extractTouchEvents (env : Env) (t : TopLevelType) (instOpt : Option Nat)
    (gcEv : GCEvent) (ps : PState) : List SynthEvent × PState :=
  let (extracted, ps) :=
    if canTriggerTransfer t instOpt gcEv ps.trackedTouchCount then
      match instOpt with
      | some inst =>
          let (r, ps') := setResponderAndExtractTransfer env t inst ps
          (r.getD [], ps')
      | none => ([], ps)
    else ([], ps)
  match instOpt.bind (fun i => ResponderCache.findAncestor env ps.rc i) with
  | none => (extracted, ps)
  | some currentInst =>
      let incremental : Option SynthType :=
        if isStartish t then some .responderStart
        else if isMoveish t then some .responderMove
        else if isEndish t then some .responderEnd
        else none
      let extracted :=
        match incremental with
        | some ty => extracted ++ [⟨ty, currentInst⟩]
        | none => extracted
      if isEndish t = false then (extracted, ps)
      else
        let closing : Option SynthType :=
          if t = .topTouchCancel then some .responderTerminate
          else if gcEv.numberActiveTouches = 0 then some .responderRelease
          else none
        match closing with
        | none => (extracted, ps)
        | some ty =>
            let ps := { ps with rc := ResponderCache.release currentInst ps.rc }
            (extracted ++ [⟨ty, currentInst⟩], ps)

/-- The body of the `forEach` over the changed-gesture events inside
`extractEvents` (lines 501-524): the on-demand `gestureStart` dispatch adds
nothing to the returned list and is omitted; the extracted touch events are
accumulated, and a bottom-up `gestureEnd` is accumulated for a gesture whose
last touch just ended. -/
def extractForGesture (env : Env) (t : TopLevelType)
    (acc : List SynthEvent × PState) (gcEv : GCEvent) :
    List SynthEvent × PState :=
  let (extracted, ps) := acc
  let targetInst : Option Nat := some gcEv.target
  let (touchEvents, ps) := extractTouchEvents env t targetInst gcEv ps
  let extracted := extracted ++ touchEvents
  let extracted :=
    if isEndish t && (gcEv.touches.length == 0)
    then extracted ++ [⟨.gestureEnd, gcEv.target⟩] else extracted
  (extracted, ps)

/-- `extractEvents` (lines 477-533), the sole entry point: reject events
carrying no touch list; adjust the tracked-touch counter and abort on a
negative count; run the gesture cache's batch processor (whose JS
`TypeError` on an untracked touch propagates); process every changed
gesture; finally notify the interaction observer when the tracked count
changed since the previous call. -/
def extractEvents (env : Env) (t : TopLevelType) (_targetInst : Option Nat)
    (ev : NativeEvent) (ps : PState) :
    Except String (List SynthEvent × PState) :=
  if ev.hasTouches = false then
    .ok ([], { ps with errors := ps.errors ++ ["Native event has no touches"] })
  else
    let ps :=
      if isStartish t then
        { ps with trackedTouchCount := ps.trackedTouchCount + ev.changedTouches.length }
      else if isEndish t then
        { ps with trackedTouchCount := ps.trackedTouchCount - ev.changedTouches.length }
      else ps
    if isEndish t && decide (ps.trackedTouchCount < 0) then
      .ok ([],
        { ps with errors :=
            ps.errors ++ ["Ended a touch event which was not counted in trackedTouchCount"] })
    else do
      let (gcEvents, gc') ← GestureCache.touchesChanged env ps.rc t ev ps.gc
      let ps := { ps with gc := gc' }
      let (extracted, ps) := gcEvents.foldl (extractForGesture env t) ([], ps)
      let ps :=
        if ps.trackedTouchCount ≠ ps.previousActiveTouches then
          { ps with
            interactionLog := ps.interactionLog ++ [ps.trackedTouchCount]
            previousActiveTouches := ps.trackedTouchCount }
        else { ps with previousActiveTouches := ps.trackedTouchCount }
      return (extracted, ps)

end ResponderEventPlugin

/-! ## Concrete scenarios -/

/-- A flat tree with no registered handlers. -/
def envTrivial : Env :=
  ⟨fun _ => [], fun _ _ => none, fun _ _ => none, fun _ => none, fun _ => none⟩

/-- The empty Registry. -/
def rcEmpty : RCState := ⟨[], [], []⟩

/-- A start batch with two touches on two distinct targets. -/
def evC1 : NativeEvent := ⟨true, [⟨1, 10⟩, ⟨2, 20⟩], false⟩

/-- A one-touch batch: identifier 1 on target 5. -/
def evS : NativeEvent := ⟨true, [⟨1, 5⟩], false⟩

/-- The gesture-cache state after starting the single touch of `evS` from
the empty cache. -/
def gcAfterStart : GCState :=
  ((GestureCache.touchesChanged envTrivial rcEmpty .topTouchStart evS
      gcEmpty).toOption.getD ([], gcEmpty)).2

/-- The result of then ending that same touch (no cancellation). -/
def endRun : List GCEvent × GCState :=
  (GestureCache.touchesChanged envTrivial rcEmpty .topTouchEnd evS
      gcAfterStart).toOption.getD ([], gcEmpty)

/-- The gesture-cache state after the full start-then-end lifecycle of one
touch. -/
def gcAfterEnd : GCState := endRun.2

/-- The result of the two-gesture start batch `evC1` from the empty
cache. -/
def startRunC1 : List GCEvent × GCState :=
  (GestureCache.touchesChanged envTrivial rcEmpty .topTouchStart evC1
      gcEmpty).toOption.getD ([], gcEmpty)

/-- A touch with identifier 1 on target 3. -/
def touch1 : Touch := ⟨1, 3⟩

/-- A cache holding one gesture (heap id 0) at target 3 owning `touch1`. -/
def gcSelf : GCState :=
  ⟨1, [(0, ⟨3, [(1, touch1)], [touch1], ⟨1⟩⟩)], [0], [(1, 0)], [(3, 0)], []⟩

/-- The section-8 ordering scenario: instance 1 (T1) is the parent of
instance 2 (T2); T2's bubbled start vote handler returns true; T1's
termination-request handler returns true. -/
def envC2 : Env :=
  ⟨fun t => if t = 2 then [1] else [],
   fun _ _ => none,
   fun vt i => if vt = .topTouchStart && i = 2 then some true else none,
   fun i => if i = 1 then some true else none,
   fun _ => none⟩

/-- Plugin state for the ordering scenario: T1 is the active responder,
no touches tracked yet. -/
def psC2 : PState := ⟨⟨[(1, 1)], [], []⟩, gcEmpty, 0, 0, [], []⟩

/-- The touch-start batch of the ordering scenario: one touch at T2. -/
def evC2 : NativeEvent := ⟨true, [⟨1, 2⟩], false⟩

/-- Denial scenario: instance 1 is the active responder, its parent 9
votes true on the start vote, and 1's termination-request handler returns
false. -/
def envC6 : Env :=
  ⟨fun t => if t = 1 then [9] else [],
   fun _ _ => none,
   fun vt i => if vt = .topTouchStart && i = 9 then some true else none,
   fun i => if i = 1 then some false else none,
   fun _ => none⟩

/-- Plugin state for the denial scenario: instance 1 is the responder. -/
def psC6 : PState := ⟨⟨[(1, 1)], [], []⟩, gcEmpty, 1, 0, [], []⟩

/-- Like `envC6` but with no termination-request listener registered at
all. -/
def envC8 : Env :=
  ⟨fun t => if t = 1 then [9] else [],
   fun _ _ => none,
   fun vt i => if vt = .topTouchStart && i = 9 then some true else none,
   fun _ => none,
   fun _ => none⟩

/-- `env` with a termination-request listener at `cur` that approves. -/
def Env.withTermApproval (env : Env) (cur : Nat) : Env :=
  { env with
    termListener := fun j => if j = cur then some true else env.termListener j }

/-- Well-formedness of the gesture cache, true of every reachable state:
`activeGestures` lists heap ids in strictly increasing (creation) order,
all below the allocation counter. -/
def GCWF (s : GCState) : Prop :=
  List.Pairwise (· < ·) s.activeGestures ∧
  ∀ gid ∈ s.activeGestures, gid < s.nextId

/-! ## Basic association-list lemmas -/

theorem look_aset_self {α : Type} (m : List (Nat × α)) (k : Nat) (v : α) :
    look (aset m k v) k = some v := by
  induction m with
  | nil => simp [aset, look]
  | cons p rest ih =>
      by_cases h : p.1 = k <;> simp [aset, look, h, ih]

theorem look_aset_ne {α : Type} (m : List (Nat × α)) (k k' : Nat) (v : α)
    (h : k ≠ k') : look (aset m k v) k' = look m k' := by
  induction m with
  | nil => simp [aset, look, h]
  | cons p rest ih =>
      by_cases hp : p.1 = k <;> simp [aset, look, hp, ih]
      · simp [h]

theorem look_aerase {α : Type} (m : List (Nat × α)) (k k' : Nat) :
    look (aerase m k) k' = if k = k' then none else look m k' := by
  induction m with
  | nil => simp [aerase, look]
  | cons p rest ih =>
      by_cases hp : p.1 = k
      · by_cases hk : k = k' <;> simp_all [aerase, look, hp, hk, ih]
      · by_cases hq : p.1 = k' <;> by_cases hk : k = k' <;>
          simp_all [aerase, look, hp, hq, hk]

theorem aerase_of_look_none {α : Type} (m : List (Nat × α)) (k : Nat)
    (h : look m k = none) : aerase m k = m := by
  induction m with
  | nil => rfl
  | cons p rest ih =>
      by_cases hp : p.1 = k <;> simp_all [look, aerase, hp]

/-! ## Field-preservation lemmas for the gesture-cache operations -/

theorem setG_activeGestures (s : GCState) (gid : Nat) (g : Gesture) :
    (GestureCache.setG s gid g).activeGestures = s.activeGestures := rfl

theorem updateG_activeGestures (s : GCState) (gid : Nat) (f : Gesture → Gesture) :
    (GestureCache.updateG s gid f).activeGestures = s.activeGestures := by
  unfold GestureCache.updateG
  cases look s.gestures gid <;> rfl

theorem updateG_nextId (s : GCState) (gid : Nat) (f : Gesture → Gesture) :
    (GestureCache.updateG s gid f).nextId = s.nextId := by
  unfold GestureCache.updateG
  cases look s.gestures gid <;> rfl

theorem updateG_gesturesByTouch (s : GCState) (gid : Nat) (f : Gesture → Gesture) :
    (GestureCache.updateG s gid f).gesturesByTouch = s.gesturesByTouch := by
  unfold GestureCache.updateG
  cases look s.gestures gid <;> rfl

theorem updateG_gesturesByTarget (s : GCState) (gid : Nat) (f : Gesture → Gesture) :
    (GestureCache.updateG s gid f).gesturesByTarget = s.gesturesByTarget := by
  unfold GestureCache.updateG
  cases look s.gestures gid <;> rfl

theorem removeGesture_gestures (gid : Nat) (s : GCState) :
    (GestureCache.removeGesture gid s).gestures = s.gestures := by
  unfold GestureCache.removeGesture
  cases look s.gestures gid <;> rfl

theorem removeGesture_nextId (gid : Nat) (s : GCState) :
    (GestureCache.removeGesture gid s).nextId = s.nextId := by
  unfold GestureCache.removeGesture
  cases look s.gestures gid <;> rfl

theorem clearFold_activeGestures (l : List Nat) (s : GCState) :
    (l.foldl (fun s gid =>
        GestureCache.updateG s gid fun g => { g with changedTouches := [] })
      s).activeGestures = s.activeGestures := by
  induction l generalizing s with
  | nil => rfl
  | cons gid rest ih => simp [List.foldl_cons, ih, updateG_activeGestures]

theorem clearFold_nextId (l : List Nat) (s : GCState) :
    (l.foldl (fun s gid =>
        GestureCache.updateG s gid fun g => { g with changedTouches := [] })
      s).nextId = s.nextId := by
  induction l generalizing s with
  | nil => rfl
  | cons gid rest ih => simp [List.foldl_cons, ih, updateG_nextId]

theorem clearFold_gesturesByTouch (l : List Nat) (s : GCState) :
    (l.foldl (fun s gid =>
        GestureCache.updateG s gid fun g => { g with changedTouches := [] })
      s).gesturesByTouch = s.gesturesByTouch := by
  induction l generalizing s with
  | nil => rfl
  | cons gid rest ih => simp [List.foldl_cons, ih, updateG_gesturesByTouch]

theorem clearChanged_activeGestures (s : GCState) :
    (GestureCache.clearChanged s).activeGestures = s.activeGestures :=
  clearFold_activeGestures s.activeGestures s

theorem clearChanged_nextId (s : GCState) :
    (GestureCache.clearChanged s).nextId = s.nextId :=
  clearFold_nextId s.activeGestures s

theorem clearChanged_gesturesByTouch (s : GCState) :
    (GestureCache.clearChanged s).gesturesByTouch = s.gesturesByTouch :=
  clearFold_gesturesByTouch s.activeGestures s

theorem clearChanged_wf (s : GCState) (h : GCWF s) :
    GCWF (GestureCache.clearChanged s) := by
  unfold GCWF at h ⊢
  rw [clearChanged_activeGestures, clearChanged_nextId]
  exact h

theorem updateG_wf (s : GCState) (gid : Nat) (f : Gesture → Gesture)
    (h : GCWF s) : GCWF (GestureCache.updateG s gid f) := by
  unfold GCWF at h ⊢
  rw [updateG_activeGestures, updateG_nextId]
  exact h

theorem attachGesture_wf (env : Env) (rc : RCState) (touch : Touch)
    (s : GCState) (h : GCWF s) :
    GCWF (GestureCache.attachGesture env rc touch s).2 := by
  obtain ⟨hpair, hbound⟩ := h
  unfold GestureCache.attachGesture
  cases hfb : look s.gesturesByTarget (GestureCache.attachTarget env rc touch) with
  | some gid => exact ⟨hpair, hbound⟩
  | none =>
      dsimp only
      refine ⟨?_, ?_⟩
      · rw [List.pairwise_append]
        refine ⟨hpair, List.pairwise_singleton _ _, ?_⟩
        intro a ha b hb
        rw [List.mem_singleton] at hb
        subst hb
        exact hbound a ha
      · intro gid hg
        rcases List.mem_append.mp hg with hg | hg
        · exact Nat.lt_succ_of_lt (hbound gid hg)
        · rw [List.mem_singleton] at hg
          subst hg
          exact Nat.lt_succ_self _

theorem attachGesture_mem (env : Env) (rc : RCState) (touch : Touch)
    (s : GCState) (gid : Nat) (h : gid ∈ s.activeGestures) :
    gid ∈ (GestureCache.attachGesture env rc touch s).2.activeGestures := by
  unfold GestureCache.attachGesture
  cases hfb : look s.gesturesByTarget (GestureCache.attachTarget env rc touch) with
  | some gid' => exact h
  | none =>
      dsimp only
      exact List.mem_append_left _ h

theorem firstLoop_wf (env : Env) (rc : RCState) (t : TopLevelType) :
    ∀ (ts : List Touch) (s s' : GCState),
    GCWF s → GestureCache.firstLoop env rc t ts s = .ok s' → GCWF s' := by
  intro ts
  induction ts with
  | nil =>
      intro s s' h hok
      simp only [GestureCache.firstLoop] at hok
      cases hok
      exact h
  | cons touch rest ih =>
      intro s s' h hok
      simp only [GestureCache.firstLoop] at hok
      by_cases hst : isStartish t = true
      · rcases hA : GestureCache.attachGesture env rc touch s with ⟨gid, s₀⟩
        simp only [hst, if_pos, hA] at hok
        have h₀ : GCWF s₀ := by
          have := attachGesture_wf env rc touch s h
          rwa [hA] at this
        refine ih _ _ ?_ hok
        split <;> [exact updateG_wf _ _ _ h₀;
          exact updateG_wf _ _ _ (updateG_wf _ _ _ h₀)]
      · simp only [hst] at hok
        cases hlk : look s.gesturesByTouch touch.identifier with
        | none => simp [hlk, if_neg] at hok
        | some gid =>
            simp only [hlk, if_neg, Bool.not_eq_true, Option.map_some'] at hok
            refine ih _ _ ?_ hok
            split <;> [exact updateG_wf _ _ _ h;
              exact updateG_wf _ _ _ (updateG_wf _ _ _ h)]

theorem firstLoop_mem (env : Env) (rc : RCState) (t : TopLevelType) :
    ∀ (ts : List Touch) (s s' : GCState),
    GestureCache.firstLoop env rc t ts s = .ok s' →
    ∀ gid ∈ s.activeGestures, gid ∈ s'.activeGestures := by
  intro ts
  induction ts with
  | nil =>
      intro s s' hok gid hg
      simp only [GestureCache.firstLoop] at hok
      cases hok
      exact hg
  | cons touch rest ih =>
      intro s s' hok gid hg
      simp only [GestureCache.firstLoop] at hok
      by_cases hst : isStartish t = true
      · rcases hA : GestureCache.attachGesture env rc touch s with ⟨gid', s₀⟩
        simp only [hst, if_pos, hA] at hok
        have h₀ : gid ∈ s₀.activeGestures := by
          have := attachGesture_mem env rc touch s gid hg
          rwa [hA] at this
        refine ih _ _ hok gid ?_
        split <;> simp [updateG_activeGestures, h₀]
      · simp only [hst] at hok
        cases hlk : look s.gesturesByTouch touch.identifier with
        | none => simp [hlk, if_neg] at hok
        | some gid' =>
            simp only [hlk, if_neg, Bool.not_eq_true, Option.map_some'] at hok
            refine ih _ _ hok gid ?_
            split <;> simp [updateG_activeGestures, hg]

theorem firstLoop_error (env : Env) (rc : RCState) (t : TopLevelType)
    (hst : isStartish t = false) :
    ∀ (ts : List Touch) (s : GCState),
    (∃ touch, touch ∈ ts ∧ look s.gesturesByTouch touch.identifier = none) →
    (GestureCache.firstLoop env rc t ts s).toOption = none := by
  intro ts
  induction ts with
  | nil => rintro s ⟨touch, h, _⟩; cases h
  | cons touch rest ih =>
      rintro s ⟨w, hw, hwl⟩
      simp only [GestureCache.firstLoop, hst, Bool.false_eq_true, if_neg,
        not_false_iff]
      cases hlk : look s.gesturesByTouch w.identifier with
      | some gid0 =>
          -- the witness is tracked, so it is not the head touch
          rw [hwl] at hlk
          cases hlk
      | none =>
          cases hhd : look s.gesturesByTouch touch.identifier with
          | none => rfl
          | some gid =>
              simp only [hhd, Option.map_some']
              have hne : w ≠ touch := by
                intro he
                rw [he, hhd] at hwl
                cases hwl
              have hwrest : w ∈ rest := by
                cases List.mem_cons.mp hw with
                | inl h => exact absurd h hne
                | inr h => exact h
              apply ih
              refine ⟨w, hwrest, ?_⟩
              split <;>
                simp [updateG_gesturesByTouch, hwl]

theorem detachLoop_activeGestures :
    ∀ (ts : List Touch) (s s' : GCState),
    GestureCache.detachLoop ts s = .ok s' →
    s'.activeGestures = s.activeGestures ∧ s'.nextId = s.nextId := by
  intro ts
  induction ts with
  | nil =>
      intro s s' hok
      simp only [GestureCache.detachLoop] at hok
      cases hok
      exact ⟨rfl, rfl⟩
  | cons touch rest ih =>
      intro s s' hok
      simp only [GestureCache.detachLoop] at hok
      cases hlk : look s.gesturesByTouch touch.identifier with
      | none => rw [hlk] at hok; cases hok
      | some gid =>
          rw [hlk] at hok
          have := ih _ _ hok
          simpa [updateG_activeGestures, updateG_nextId] using this

theorem detachLoop_wf (ts : List Touch) (s s' : GCState) (h : GCWF s)
    (hok : GestureCache.detachLoop ts s = .ok s') : GCWF s' := by
  obtain ⟨ha, hn⟩ := detachLoop_activeGestures ts s s' hok
  unfold GCWF at h ⊢
  rw [ha, hn]
  exact h

/-! ## Result-loop lemmas -/

/-- Inversion of one result-loop step that produced an event. -/
theorem resultStep_inv (t : TopLevelType) (ev : NativeEvent) (gid : Nat)
    (s : GCState) (e : GCEvent) (s₁ : GCState)
    (h : GestureCache.resultStep t ev gid s = some (e, s₁)) :
    ∃ g, look s.gestures gid = some g ∧ g.changedTouches.length ≠ 0 ∧
      e = GestureCache.mkGCEvent gid
        { g with touchHistory := recordTouchEvent t g.changedTouches g.touchHistory } ev ∧
      ((isEndish t &&
          ((recordTouchEvent t g.changedTouches g.touchHistory).numberActiveTouches == 0))
            = true ∧
        s₁ = GestureCache.removeGesture gid (GestureCache.setG s gid
          { g with touchHistory := recordTouchEvent t g.changedTouches g.touchHistory }) ∨
       (isEndish t &&
          ((recordTouchEvent t g.changedTouches g.touchHistory).numberActiveTouches == 0))
            = false ∧
        s₁ = GestureCache.setG s gid
          { g with touchHistory := recordTouchEvent t g.changedTouches g.touchHistory }) := by
  unfold GestureCache.resultStep at h
  cases hlk : look s.gestures gid with
  | none => rw [hlk] at h; cases h
  | some g =>
      rw [hlk] at h
      dsimp only at h
      by_cases hc : g.changedTouches.length = 0
      · rw [if_pos hc] at h; cases h
      · rw [if_neg hc] at h
        refine ⟨g, rfl, hc, ?_⟩
        cases hrm : (isEndish t &&
            ((recordTouchEvent t g.changedTouches g.touchHistory).numberActiveTouches == 0)) with
        | true =>
            simp only [hrm, if_pos] at h
            injection h with h
            injection h with h₁ h₂
            exact ⟨h₁.symm, Or.inl ⟨rfl, h₂.symm⟩⟩
        | false =>
            simp only [hrm, Bool.false_eq_true, if_neg, not_false_iff] at h
            injection h with h
            injection h with h₁ h₂
            exact ⟨h₁.symm, Or.inr ⟨rfl, h₂.symm⟩⟩

/-- The gesture ids of the returned events form a sublist of the visited
snapshot, hence appear in visit order. -/
theorem resultLoop_gids_sublist (t : TopLevelType) (ev : NativeEvent) :
    ∀ (ids : List Nat) (s : GCState),
    ((GestureCache.resultLoop t ev ids s).1.map GCEvent.gid).Sublist ids := by
  intro ids
  induction ids with
  | nil => intro s; simp [GestureCache.resultLoop]
  | cons gid rest ih =>
      intro s
      simp only [GestureCache.resultLoop]
      cases hstep : GestureCache.resultStep t ev gid s with
      | none => exact (ih s).cons gid
      | some pr =>
          rcases pr with ⟨e, s₁⟩
          obtain ⟨g, _, _, he, _⟩ := resultStep_inv t ev gid s e s₁ hstep
          have : e.gid = gid := by rw [he]; rfl
          simpa [this] using (ih s₁).cons₂ gid

/-- Outside an end-like batch the result loop never touches
`activeGestures`. -/
theorem resultLoop_active_nonend (t : TopLevelType) (ev : NativeEvent)
    (hend : isEndish t = false) :
    ∀ (ids : List Nat) (s : GCState),
    (GestureCache.resultLoop t ev ids s).2.activeGestures = s.activeGestures := by
  intro ids
  induction ids with
  | nil => intro s; rfl
  | cons gid rest ih =>
      intro s
      simp only [GestureCache.resultLoop]
      cases hstep : GestureCache.resultStep t ev gid s with
      | none => exact ih s
      | some pr =>
          rcases pr with ⟨e, s₁⟩
          obtain ⟨g, _, _, _, hcase⟩ := resultStep_inv t ev gid s e s₁ hstep
          rcases hcase with ⟨hrm, _⟩ | ⟨_, hs₁⟩
          · rw [hend] at hrm; cases hrm
          · rw [ih s₁, hs₁, setG_activeGestures]

/-- Inversion of a skipped result-loop step. -/
theorem resultStep_none_inv (t : TopLevelType) (ev : NativeEvent) (gid : Nat)
    (s : GCState) (h : GestureCache.resultStep t ev gid s = none) :
    look s.gestures gid = none ∨
    ∃ g, look s.gestures gid = some g ∧ g.changedTouches = [] := by
  unfold GestureCache.resultStep at h
  cases hlk : look s.gestures gid with
  | none => exact Or.inl rfl
  | some g =>
      rw [hlk] at h
      dsimp only at h
      by_cases hc : g.changedTouches.length = 0
      · exact Or.inr ⟨g, rfl, List.length_eq_zero.mp hc⟩
      · rw [if_neg hc] at h
        split at h <;> cases h

theorem look_setG_self (s : GCState) (gid : Nat) (g : Gesture) :
    look (GestureCache.setG s gid g).gestures gid = some g :=
  look_aset_self s.gestures gid g

theorem look_setG_ne (s : GCState) (gid q : Nat) (g : Gesture) (h : gid ≠ q) :
    look (GestureCache.setG s gid g).gestures q = look s.gestures q :=
  look_aset_ne s.gestures gid q g h

theorem removeGesture_setG_active (s : GCState) (gid : Nat) (g : Gesture) :
    (GestureCache.removeGesture gid (GestureCache.setG s gid g)).activeGestures =
      s.activeGestures.erase gid := by
  unfold GestureCache.removeGesture
  rw [look_setG_self]
  rfl

theorem removeGesture_setG_byTarget (s : GCState) (gid : Nat) (g : Gesture) :
    (GestureCache.removeGesture gid (GestureCache.setG s gid g)).gesturesByTarget =
      aerase s.gesturesByTarget g.target := by
  unfold GestureCache.removeGesture
  rw [look_setG_self]
  rfl

theorem removeGesture_setG_gestures (s : GCState) (gid : Nat) (g : Gesture) :
    (GestureCache.removeGesture gid (GestureCache.setG s gid g)).gestures =
      (GestureCache.setG s gid g).gestures := by
  unfold GestureCache.removeGesture
  rw [look_setG_self]

theorem resultLoop_store_nonmem (t : TopLevelType) (ev : NativeEvent) :
    ∀ (ids : List Nat) (s : GCState) (gid : Nat), gid ∉ ids →
    look (GestureCache.resultLoop t ev ids s).2.gestures gid =
      look s.gestures gid := by
  intro ids
  induction ids with
  | nil => intro s gid _; rfl
  | cons gid0 rest ih =>
      intro s gid hmem
      have hne : gid ≠ gid0 := fun h => hmem (h ▸ List.mem_cons_self gid0 rest)
      have hrest : gid ∉ rest := fun h => hmem (List.mem_cons_of_mem gid0 h)
      simp only [GestureCache.resultLoop]
      cases hstep : GestureCache.resultStep t ev gid0 s with
      | none => exact ih s gid hrest
      | some pr =>
          rcases pr with ⟨e, s₁⟩
          obtain ⟨g, _, _, _, hcase⟩ := resultStep_inv t ev gid0 s e s₁ hstep
          have hstore : look s₁.gestures gid = look s.gestures gid := by
            rcases hcase with ⟨_, hs₁⟩ | ⟨_, hs₁⟩
            · rw [hs₁, removeGesture_setG_gestures, look_setG_ne _ _ _ _ (Ne.symm hne)]
            · rw [hs₁, look_setG_ne _ _ _ _ (Ne.symm hne)]
          rw [ih s₁ gid hrest, hstore]

theorem resultLoop_active_nonmem (t : TopLevelType) (ev : NativeEvent) :
    ∀ (ids : List Nat) (s : GCState) (gid : Nat), gid ∉ ids →
    (gid ∈ (GestureCache.resultLoop t ev ids s).2.activeGestures ↔
      gid ∈ s.activeGestures) := by
  intro ids
  induction ids with
  | nil => intro s gid _; rfl
  | cons gid0 rest ih =>
      intro s gid hmem
      have hne : gid ≠ gid0 := fun h => hmem (h ▸ List.mem_cons_self gid0 rest)
      have hrest : gid ∉ rest := fun h => hmem (List.mem_cons_of_mem gid0 h)
      simp only [GestureCache.resultLoop]
      cases hstep : GestureCache.resultStep t ev gid0 s with
      | none => exact ih s gid hrest
      | some pr =>
          rcases pr with ⟨e, s₁⟩
          obtain ⟨g, _, _, _, hcase⟩ := resultStep_inv t ev gid0 s e s₁ hstep
          have hact : (gid ∈ s₁.activeGestures ↔ gid ∈ s.activeGestures) := by
            rcases hcase with ⟨_, hs₁⟩ | ⟨_, hs₁⟩
            · rw [hs₁, removeGesture_setG_active]
              exact List.mem_erase_of_ne hne
            · rw [hs₁, setG_activeGestures]
          rw [ih s₁ gid hrest, hact]

theorem resultLoop_byTarget_none (t : TopLevelType) (ev : NativeEvent) :
    ∀ (ids : List Nat) (s : GCState) (k : Nat),
    look s.gesturesByTarget k = none →
    look (GestureCache.resultLoop t ev ids s).2.gesturesByTarget k = none := by
  intro ids
  induction ids with
  | nil => intro s k h; exact h
  | cons gid0 rest ih =>
      intro s k h
      simp only [GestureCache.resultLoop]
      cases hstep : GestureCache.resultStep t ev gid0 s with
      | none => exact ih s k h
      | some pr =>
          rcases pr with ⟨e, s₁⟩
          obtain ⟨g, _, _, _, hcase⟩ := resultStep_inv t ev gid0 s e s₁ hstep
          refine ih s₁ k ?_
          rcases hcase with ⟨_, hs₁⟩ | ⟨_, hs₁⟩
          · rw [hs₁, removeGesture_setG_byTarget, look_aerase]
            split <;> [rfl; exact h]
          · rw [hs₁]; exact h

theorem resultLoop_active_subset (t : TopLevelType) (ev : NativeEvent) :
    ∀ (ids : List Nat) (s : GCState) (gid : Nat),
    gid ∈ (GestureCache.resultLoop t ev ids s).2.activeGestures →
    gid ∈ s.activeGestures := by
  intro ids
  induction ids with
  | nil => intro s gid h; exact h
  | cons gid0 rest ih =>
      intro s gid h
      simp only [GestureCache.resultLoop] at h
      cases hstep : GestureCache.resultStep t ev gid0 s with
      | none => rw [hstep] at h; exact ih s gid h
      | some pr =>
          rcases pr with ⟨e, s₁⟩
          rw [hstep] at h
          obtain ⟨g, _, _, _, hcase⟩ := resultStep_inv t ev gid0 s e s₁ hstep
          have h₁ : gid ∈ s₁.activeGestures := ih s₁ gid h
          rcases hcase with ⟨_, hs₁⟩ | ⟨_, hs₁⟩
          · rw [hs₁, removeGesture_setG_active] at h₁
            exact List.mem_of_mem_erase h₁
          · rw [hs₁, setG_activeGestures] at h₁
            exact h₁

/-- During an end-like pass, a gesture that disappears from
`activeGestures` ends with zero active touches in its (retained) heap
record and no `gesturesByTarget` entry for its target. -/
theorem resultLoop_removed_zero (t : TopLevelType) (ev : NativeEvent)
    (hend : isEndish t = true) :
    ∀ (ids : List Nat) (s : GCState), ids.Nodup → ∀ gid,
    gid ∈ s.activeGestures →
    gid ∉ (GestureCache.resultLoop t ev ids s).2.activeGestures →
    (look (GestureCache.resultLoop t ev ids s).2.gestures gid).map
      (fun g => (g.touchHistory.numberActiveTouches,
        look (GestureCache.resultLoop t ev ids s).2.gesturesByTarget g.target)) =
      some (0, none) := by
  intro ids
  induction ids with
  | nil =>
      intro s _ gid hmem hnot
      exact absurd hmem hnot
  | cons gid0 rest ih =>
      intro s hnod gid hmem hnot
      have hnod0 : gid0 ∉ rest := (List.nodup_cons.mp hnod).1
      have hnodr : rest.Nodup := (List.nodup_cons.mp hnod).2
      simp only [GestureCache.resultLoop] at hnot ⊢
      cases hstep : GestureCache.resultStep t ev gid0 s with
      | none =>
          rw [hstep] at hnot
          exact ih s hnodr gid hmem hnot
      | some pr =>
          rcases pr with ⟨e, s₁⟩
          rw [hstep] at hnot
          obtain ⟨g, hg, _, _, hcase⟩ := resultStep_inv t ev gid0 s e s₁ hstep
          rcases hcase with ⟨hrm, hs₁⟩ | ⟨hrm, hs₁⟩
          · -- the step removed gesture gid0
            by_cases hgid : gid = gid0
            · subst hgid
              have hzero :
                  (recordTouchEvent t g.changedTouches g.touchHistory).numberActiveTouches
                    = 0 := by
                rw [hend] at hrm
                simpa using hrm
              have hstore : look (GestureCache.resultLoop t ev rest s₁).2.gestures gid =
                  some { g with touchHistory := recordTouchEvent t g.changedTouches g.touchHistory } := by
                rw [resultLoop_store_nonmem t ev rest s₁ gid hnod0, hs₁,
                  removeGesture_setG_gestures, look_setG_self]
              have htarget :
                  look (GestureCache.resultLoop t ev rest s₁).2.gesturesByTarget g.target
                    = none := by
                refine resultLoop_byTarget_none t ev rest s₁ g.target ?_
                rw [hs₁, removeGesture_setG_byTarget, look_aerase, if_pos rfl]
              rw [hstore]
              simp only [Option.map_some']
              rw [hzero, htarget]
            · have hmem₁ : gid ∈ s₁.activeGestures := by
                rw [hs₁, removeGesture_setG_active]
                exact (List.mem_erase_of_ne hgid).mpr hmem
              exact ih s₁ hnodr gid hmem₁ hnot
          · -- no removal: the gesture survives this step
            by_cases hgid : gid = gid0
            · subst hgid
              have hmem₁ : gid ∈ s₁.activeGestures := by
                rw [hs₁, setG_activeGestures]; exact hmem
              exact absurd ((resultLoop_active_nonmem t ev rest s₁ gid hnod0).mpr hmem₁) hnot
            · have hmem₁ : gid ∈ s₁.activeGestures := by
                rw [hs₁, setG_activeGestures]; exact hmem
              exact ih s₁ hnodr gid hmem₁ hnot

/-- During an end-like pass, a visited gesture that survives in
`activeGestures` with a non-empty changed-touch list has a non-zero
active-touch count in its final heap record. -/
theorem resultLoop_survivor_nonzero (t : TopLevelType) (ev : NativeEvent)
    (hend : isEndish t = true) :
    ∀ (ids : List Nat) (s : GCState), ids.Nodup →
    s.activeGestures.Nodup → ∀ gid,
    gid ∈ ids →
    gid ∈ (GestureCache.resultLoop t ev ids s).2.activeGestures →
    ∀ g, look (GestureCache.resultLoop t ev ids s).2.gestures gid = some g →
    g.changedTouches ≠ [] → g.touchHistory.numberActiveTouches ≠ 0 := by
  intro ids
  induction ids with
  | nil =>
      intro s _ _ gid hin
      exact absurd hin (List.not_mem_nil gid)
  | cons gid0 rest ih =>
      intro s hnod hsnod gid hin hsurv g hlook hne
      have hnod0 : gid0 ∉ rest := (List.nodup_cons.mp hnod).1
      have hnodr : rest.Nodup := (List.nodup_cons.mp hnod).2
      simp only [GestureCache.resultLoop] at hsurv hlook
      cases hstep : GestureCache.resultStep t ev gid0 s with
      | none =>
          rw [hstep] at hsurv hlook
          rcases List.mem_cons.mp hin with hgid | hin'
          · subst hgid
            rw [resultLoop_store_nonmem t ev rest s gid hnod0] at hlook
            rcases resultStep_none_inv t ev gid s hstep with hnone | ⟨g₀, hg₀, hch⟩
            · rw [hnone] at hlook; cases hlook
            · rw [hg₀] at hlook
              injection hlook with hlook
              subst hlook
              exact absurd hch hne
          · exact ih s hnodr hsnod gid hin' hsurv g hlook hne
      | some pr =>
          rcases pr with ⟨e, s₁⟩
          rw [hstep] at hsurv hlook
          obtain ⟨g₀, hg₀, _, _, hcase⟩ := resultStep_inv t ev gid0 s e s₁ hstep
          have hsnod₁ : s₁.activeGestures.Nodup := by
            rcases hcase with ⟨_, hs₁⟩ | ⟨_, hs₁⟩
            · rw [hs₁, removeGesture_setG_active]
              exact hsnod.erase gid0
            · rw [hs₁, setG_activeGestures]; exact hsnod
          rcases List.mem_cons.mp hin with hgid | hin'
          · subst hgid
            rcases hcase with ⟨hrm, hs₁⟩ | ⟨hrm, hs₁⟩
            · -- removed, so it cannot survive
              exfalso
              have : gid ∈ s₁.activeGestures :=
                (resultLoop_active_nonmem t ev rest s₁ gid hnod0).mp hsurv
              rw [hs₁, removeGesture_setG_active] at this
              exact ((hsnod.mem_erase_iff.mp this).1) rfl
            · have hnz :
                  (recordTouchEvent t g₀.changedTouches g₀.touchHistory).numberActiveTouches
                    ≠ 0 := by
                rw [hend] at hrm
                simpa using hrm
              rw [resultLoop_store_nonmem t ev rest s₁ gid hnod0, hs₁,
                look_setG_self] at hlook
              injection hlook with hlook
              subst hlook
              exact hnz
          · exact ih s₁ hnodr hsnod₁ gid hin' hsurv g hlook hne

/-- Inversion of a successful batch: there is a state after the
association loop and one after the detach phase, the final result coming
from the backward result loop over the latter. -/
theorem touchesChanged_inv (env : Env) (rc : RCState) (t : TopLevelType)
    (ev : NativeEvent) (s : GCState) (evs : List GCEvent) (s' : GCState)
    (h : GestureCache.touchesChanged env rc t ev s = .ok (evs, s')) :
    ∃ s₁ s₂,
      GestureCache.firstLoop env rc t ev.changedTouches
        (GestureCache.clearChanged s) = .ok s₁ ∧
      (if isEndish t then GestureCache.detachLoop ev.changedTouches s₁
       else .ok s₁) = .ok s₂ ∧
      GestureCache.resultLoop t ev s₂.activeGestures.reverse s₂ = (evs, s') := by
  unfold GestureCache.touchesChanged at h
  dsimp only at h
  cases hf : GestureCache.firstLoop env rc t ev.changedTouches
      (GestureCache.clearChanged s) with
  | error msg => rw [hf] at h; simp [Bind.bind, Except.bind] at h
  | ok s₁ =>
      rw [hf] at h
      simp only [Bind.bind, Except.bind] at h
      by_cases hend : isEndish t = true
      · rw [if_pos hend] at h
        cases hd : GestureCache.detachLoop ev.changedTouches s₁ with
        | error msg => rw [hd] at h; cases h
        | ok s₂ =>
            rw [hd] at h
            dsimp only at h
            simp only [pure, Except.pure] at h
            injection h with h
            exact ⟨s₁, s₂, rfl, by rw [if_pos hend, hd], h⟩
      · rw [if_neg hend] at h
        simp only [pure, Except.pure] at h
        injection h with h
        exact ⟨s₁, s₁, rfl, by rw [if_neg hend], h⟩

/-! ## Claim theorems: the Registry (`ResponderCache.js`) -/

/-- C10: `ResponderCache.release` notifies the injected global observer
with `(inst, null)` unconditionally — the notification appended to the log
is the same whatever the cache holds, so the observer cannot tell a valid
release from the release of a non-responder. -/
theorem releaseAlwaysNotifiesObserver :
    ∀ (s : RCState) (inst : Nat),
    (ResponderCache.release inst s).log = s.log ++ [⟨some inst, none, none⟩] :=
  fun _ _ => rfl

/-- C5 counterexample: releasing instance 5, which is not the current
entry of the empty Registry, reports nothing — the warning channel stays
empty, refuting the claim that the contract violation is surfaced. -/
theorem releaseSilentCounterexample :
    look rcEmpty.cache 5 = none ∧
    (ResponderCache.release 5 rcEmpty).warnings = [] := by
  constructor <;> rfl

/-- C5 amended: releasing an instance that is not the current Registry
entry for its target identity is silent: no report is made, the cache is
left unchanged (the delete is a no-op), and the global observer is still
notified with `(inst, null)`. -/
theorem releaseNonCurrentSilent :
    ∀ (s : RCState) (inst : Nat), look s.cache inst = none →
    (ResponderCache.release inst s).warnings = s.warnings ∧
    (ResponderCache.release inst s).cache = s.cache ∧
    (ResponderCache.release inst s).log = s.log ++ [⟨some inst, none, none⟩] := by
  intro s inst h
  refine ⟨rfl, ?_, rfl⟩
  exact aerase_of_look_none s.cache inst h

theorem releaseNonCurrentSilentWitness :
    look rcEmpty.cache 5 = none ∧
    ((ResponderCache.release 5 rcEmpty).warnings = rcEmpty.warnings ∧
     (ResponderCache.release 5 rcEmpty).cache = rcEmpty.cache ∧
     (ResponderCache.release 5 rcEmpty).log =
       rcEmpty.log ++ [⟨some 5, none, none⟩]) :=
  ⟨rfl, releaseNonCurrentSilent rcEmpty 5 rfl⟩

/-! ## Claim theorems: the gesture cache (`GestureCache.js`) -/

/-- C3 (code bug): the exported `targetChanged` lost the first
definition's equal-target guard.  Retargeting target 3 to itself while it
owns a gesture merges the gesture into itself: its changed-touch list is
doubled, it is spliced out of `activeGestures` and `gesturesByTarget`,
`gesturesByTouch` is left dangling on the removed gesture, and no warning
is reported — while the superseded first definition rejects the same call
with a warning and leaves the cache untouched. -/
theorem selfRetargetCorruptsCache :
    GestureCache.targetChanged .topTouchMove 3 3 gcSelf =
      ⟨1, [(0, ⟨3, [(1, touch1)], [touch1, touch1], ⟨1⟩⟩)],
        [], [(1, 0)], [], []⟩ ∧
    GestureCache.targetChanged .topTouchMove 3 3 gcSelf ≠ gcSelf ∧
    GestureCache.targetChangedV1 .topTouchMove 3 3 gcSelf =
      { gcSelf with warnings := gcSelf.warnings ++ ["Targets cannot be equal"] } := by
  refine ⟨by decide, by decide, by decide⟩

/-- Supporting fact for C3: when the old target owns no gesture, the
exported `targetChanged` does warn and leaves every index unchanged. -/
theorem retargetWithoutGestureWarns :
    ∀ (t : TopLevelType) (oldTarget newTarget : Nat) (s : GCState),
    look s.gesturesByTarget oldTarget = none →
    GestureCache.targetChanged t oldTarget newTarget s =
      { s with warnings := s.warnings ++ ["Invalid target has no gesture"] } := by
  intro t o n s h
  simp [GestureCache.targetChanged, GestureCache.targetChangedCore, h]

/-- C1 counterexample: one start batch creating two gestures (heap ids 0
then 1, in creation order).  The exported `touchesChanged` returns their
events newest-first — gid list `[1, 0]` — which is not ordered oldest
(created) first. -/
theorem touchesChangedOrderCounterexample :
    (GestureCache.touchesChanged envTrivial rcEmpty .topTouchStart evC1
        gcEmpty).map (fun r => r.1.map GCEvent.gid) = .ok [1, 0] ∧
    ¬ List.Pairwise (· ≤ ·) ([1, 0] : List Nat) := by
  refine ⟨rfl, by decide⟩

/-- C4 counterexample: an end batch for a touch the touch-to-gesture index
does not track crashes the whole batch (the JS `TypeError` on reading a
property of `undefined`) instead of reporting and completing normally. -/
theorem untrackedTouchCrashCounterexample :
    GestureCache.touchesChanged envTrivial rcEmpty .topTouchEnd evS gcEmpty =
      .error "TypeError: cannot read property of undefined" := rfl

/-! ## Claim theorems: the negotiation engine (`ResponderEventPlugin.js`) -/

/-- C7: `canTriggerTransfer` holds exactly when the target instance exists
and the event is a scroll not flagged `responderIgnoreScroll`, or a
selection change while the tracked-touch count is positive, or start-like,
or move-like. -/
theorem canTriggerTransferIff :
    ∀ (t : TopLevelType) (inst : Option Nat) (ev : GCEvent) (tc : Int),
    ResponderEventPlugin.canTriggerTransfer t inst ev tc = true ↔
      (inst.isSome = true ∧
        ((t = .topScroll ∧ ev.responderIgnoreScroll = false) ∨
         (t = .topSelectionChange ∧ 0 < tc) ∨
         isStartish t = true ∨ isMoveish t = true)) := by
  intro t inst ev tc
  cases inst <;> cases t <;> cases hig : ev.responderIgnoreScroll <;>
    simp_all [ResponderEventPlugin.canTriggerTransfer, isStartish, isMoveish]

/-- C2 counterexample: instance 1 (T1) is the active responder and the
parent of instance 2 (T2); a touch starts at T2; T2's start vote handler
returns true and T1's termination-request handler returns true.  The
extraction returns only T1's `responderStart`: the vote traversal runs over
the active responder's ancestors with the responder itself skipped, so the
descendant T2 is never consulted and no transfer happens — not the claimed
`[T1 terminate, T2 grant, T2 responderStart]`. -/
theorem descendantVoteScenarioCounterexample :
    (ResponderEventPlugin.extractEvents envC2 .topTouchStart (some 2) evC2
        psC2).map (fun r => r.1) = .ok [⟨.responderStart, 1⟩] ∧
    ([(⟨.responderStart, 1⟩ : SynthEvent)] : List SynthEvent) ≠
      [⟨.responderTerminate, 1⟩, ⟨.responderGrant, 2⟩,
       ⟨.responderStart, 2⟩] := by
  refine ⟨rfl, by decide⟩

/-- C2 amended: in the section-8 ordering scenario the descendant's vote
is never consulted (the capture/bubble vote covers only the active
responder's ancestors, skipping the responder itself), so no transfer
occurs and the emitted list is exactly `[T1 responderStart]`; the
tracked-touch count still increments by exactly 1 (from 0 to 1) and the
interaction observer is notified exactly once, while the Registry still
maps T1 to itself. -/
theorem descendantVoteScenarioActual :
    (ResponderEventPlugin.extractEvents envC2 .topTouchStart (some 2) evC2
        psC2).map
      (fun r => (r.1, r.2.trackedTouchCount, r.2.interactionLog,
                 r.2.rc.cache)) =
      .ok ([⟨.responderStart, 1⟩], 1, [1], [(1, 1)]) := rfl

/-- C6: when the negotiation reaches an active responder whose
termination-request handler returns false, the only event returned from
the negotiation is a `responderReject` for the candidate, and the Registry
is completely untouched — same cache (the previous responder keeps its
entry) and same notification log (no release, no grant). -/
theorem terminationDeniedRejectOnly :
    ∀ (env : Env) (t : TopLevelType) (targetInst : Nat) (ps : PState)
      (cur next : Nat),
    ResponderCache.findAncestor env ps.rc targetInst = some cur →
    ResponderEventPlugin.voteWinner env (ResponderEventPlugin.voteTypeOf t)
      cur true = some next →
    env.termListener cur = some false →
    (ResponderEventPlugin.setResponderAndExtractTransfer env t targetInst
        ps).1 = some [⟨.responderReject, next⟩] ∧
    (ResponderEventPlugin.setResponderAndExtractTransfer env t targetInst
        ps).2.rc = ps.rc := by
  intro env t targetInst ps cur next hfind hvote hterm
  by_cases hc : cur = targetInst
  · subst hc
    simp [ResponderEventPlugin.setResponderAndExtractTransfer, hfind, hvote,
      ResponderEventPlugin.shouldSwitch, hterm]
  · simp [ResponderEventPlugin.setResponderAndExtractTransfer, hfind, hc,
      hvote, ResponderEventPlugin.shouldSwitch, hterm]

theorem terminationDeniedRejectOnlyWitness :
    ResponderCache.findAncestor envC6 psC6.rc 1 = some 1 ∧
    ResponderEventPlugin.voteWinner envC6
      (ResponderEventPlugin.voteTypeOf .topTouchStart) 1 true = some 9 ∧
    envC6.termListener 1 = some false ∧
    ((ResponderEventPlugin.setResponderAndExtractTransfer envC6
        .topTouchStart 1 psC6).1 = some [⟨.responderReject, 9⟩] ∧
     (ResponderEventPlugin.setResponderAndExtractTransfer envC6
        .topTouchStart 1 psC6).2.rc = psC6.rc) :=
  ⟨rfl, rfl, rfl,
    terminationDeniedRejectOnly envC6 .topTouchStart 1 psC6 1 9 rfl rfl rfl⟩

/-- C8: when an active responder exists but no listener is registered for
its termination request, the negotiation behaves exactly as if a listener
had approved the request — the whole run (returned events and final state)
coincides with the run under an approving listener, and when some handler
voted a candidate in, that candidate ends up granted in the Registry. -/
theorem noTerminationListenerApproves :
    ∀ (env : Env) (t : TopLevelType) (targetInst : Nat) (ps : PState)
      (cur : Nat),
    ResponderCache.findAncestor env ps.rc targetInst = some cur →
    env.termListener cur = none →
    ResponderEventPlugin.setResponderAndExtractTransfer env t targetInst ps =
      ResponderEventPlugin.setResponderAndExtractTransfer
        (env.withTermApproval cur) t targetInst ps ∧
    (∀ next,
      ResponderEventPlugin.voteWinner env (ResponderEventPlugin.voteTypeOf t)
        cur true = some next →
      look (ResponderEventPlugin.setResponderAndExtractTransfer env t
          targetInst ps).2.rc.cache next = some next) := by
  intro env t targetInst ps cur hfind hnone
  have hanc : (env.withTermApproval cur).ancestors = env.ancestors := rfl
  have hcap : (env.withTermApproval cur).shouldSetCapture =
      env.shouldSetCapture := rfl
  have hbub : (env.withTermApproval cur).shouldSetBubble =
      env.shouldSetBubble := rfl
  have hgrant : (env.withTermApproval cur).grantListener =
      env.grantListener := rfl
  have hfind' : ResponderCache.findAncestor (env.withTermApproval cur) ps.rc
      targetInst = some cur := by
    simpa [ResponderCache.findAncestor, inclusiveChain, hanc] using hfind
  have hvoteEq : ∀ vt tgt skip,
      ResponderEventPlugin.voteWinner (env.withTermApproval cur) vt tgt skip =
        ResponderEventPlugin.voteWinner env vt tgt skip := by
    intro vt tgt skip
    simp [ResponderEventPlugin.voteWinner, inclusiveChain,
      Env.withTermApproval]
  have hsw : ResponderEventPlugin.shouldSwitch env cur = true := by
    simp [ResponderEventPlugin.shouldSwitch, hnone]
  have hsw' : ResponderEventPlugin.shouldSwitch (env.withTermApproval cur)
      cur = true := by
    simp [ResponderEventPlugin.shouldSwitch, Env.withTermApproval]
  have hproc : ∀ tgt next ps',
      ResponderEventPlugin.proceedGrant (env.withTermApproval cur) t tgt
        next ps' = ResponderEventPlugin.proceedGrant env t tgt next ps' := by
    intro tgt next ps'
    simp [ResponderEventPlugin.proceedGrant, hgrant]
  constructor
  · by_cases hc : cur = targetInst <;>
      cases hvote : ResponderEventPlugin.voteWinner env
        (ResponderEventPlugin.voteTypeOf t) cur true <;>
      simp_all [ResponderEventPlugin.setResponderAndExtractTransfer, hfind,
        hfind', hc, hvoteEq, hvote, hsw, hsw', hproc]
  · intro next hvote
    by_cases hc : cur = targetInst <;>
      simp_all [ResponderEventPlugin.setResponderAndExtractTransfer, hfind,
        hc, hvote, hsw, ResponderEventPlugin.proceedGrant,
        ResponderCache.grant] <;>
      split <;>
      simp [ResponderCache.grant, look_aset_self]

theorem noTerminationListenerApprovesWitness :
    ResponderCache.findAncestor envC8 psC6.rc 1 = some 1 ∧
    envC8.termListener 1 = none ∧
    (ResponderEventPlugin.setResponderAndExtractTransfer envC8 .topTouchStart
        1 psC6 =
      ResponderEventPlugin.setResponderAndExtractTransfer
        (envC8.withTermApproval 1) .topTouchStart 1 psC6 ∧
     (∀ next,
      ResponderEventPlugin.voteWinner envC8
        (ResponderEventPlugin.voteTypeOf .topTouchStart) 1 true = some next →
      look (ResponderEventPlugin.setResponderAndExtractTransfer envC8
          .topTouchStart 1 psC6).2.rc.cache next = some next)) :=
  ⟨rfl, rfl,
    noTerminationListenerApproves envC8 .topTouchStart 1 psC6 1 rfl rfl⟩

/-- C1 amended: for any well-formed cache state, the exported
`touchesChanged` returns the changed-gesture events in strictly decreasing
heap-id order — newest (most recently created) gesture first, the reverse
of the claimed oldest-first order.  (The superseded first definition of
`touchesChanged`, lines 62-116, iterated `activeGestures` forward and
returned oldest first.) -/
theorem touchesChangedReturnsNewestFirst :
    ∀ (env : Env) (rc : RCState) (t : TopLevelType) (ev : NativeEvent)
      (s : GCState) (evs : List GCEvent) (s' : GCState),
    GCWF s →
    GestureCache.touchesChanged env rc t ev s = .ok (evs, s') →
    List.Pairwise (· > ·) (evs.map GCEvent.gid) := by
  intro env rc t ev s evs s' hwf h
  obtain ⟨s₁, s₂, hf, hd, hr⟩ := touchesChanged_inv env rc t ev s evs s' h
  have hwf₁ : GCWF s₁ := firstLoop_wf env rc t _ _ _ (clearChanged_wf s hwf) hf
  have hwf₂ : GCWF s₂ := by
    by_cases hend : isEndish t = true
    · rw [if_pos hend] at hd
      exact detachLoop_wf _ _ _ hwf₁ hd
    · rw [if_neg hend] at hd
      injection hd with hd
      rwa [← hd]
  have hrev : List.Pairwise (· > ·) s₂.activeGestures.reverse :=
    List.pairwise_reverse.mpr hwf₂.1
  have hsub := resultLoop_gids_sublist t ev s₂.activeGestures.reverse s₂
  rw [hr] at hsub
  exact List.Pairwise.sublist hsub hrev

theorem touchesChangedReturnsNewestFirstWitness :
    GCWF gcEmpty ∧
    List.Pairwise (· > ·) (startRunC1.1.map GCEvent.gid) := by
  constructor
  · exact ⟨List.Pairwise.nil, fun gid h => absurd h (List.not_mem_nil gid)⟩
  · exact touchesChangedReturnsNewestFirst envTrivial rcEmpty .topTouchStart
      evC1 gcEmpty startRunC1.1 startRunC1.2
      ⟨List.Pairwise.nil, fun gid h => absurd h (List.not_mem_nil gid)⟩ rfl

/-- C4 amended: a non-start batch containing a touch whose identifier is
not tracked by the touch-to-gesture index does not report and continue —
the whole batch processor throws (the modelled JS `TypeError`), returning
no result at all. -/
theorem untrackedTouchCrashesBatch :
    ∀ (env : Env) (rc : RCState) (t : TopLevelType) (ev : NativeEvent)
      (s : GCState),
    isStartish t = false →
    (∃ touch, touch ∈ ev.changedTouches ∧
      look s.gesturesByTouch touch.identifier = none) →
    (GestureCache.touchesChanged env rc t ev s).toOption = none := by
  rintro env rc t ev s hst ⟨w, hw, hl⟩
  have hcl : look (GestureCache.clearChanged s).gesturesByTouch w.identifier
      = none := by
    rw [clearChanged_gesturesByTouch]
    exact hl
  have herr := firstLoop_error env rc t hst ev.changedTouches
    (GestureCache.clearChanged s) ⟨w, hw, hcl⟩
  unfold GestureCache.touchesChanged
  dsimp only
  cases hf : GestureCache.firstLoop env rc t ev.changedTouches
      (GestureCache.clearChanged s) with
  | error msg => simp [Bind.bind, Except.bind, Except.toOption]
  | ok s₁ =>
      rw [hf] at herr
      simp [Except.toOption] at herr

theorem untrackedTouchCrashesBatchWitness :
    isStartish .topTouchEnd = false ∧
    (∃ touch, touch ∈ evS.changedTouches ∧
      look gcEmpty.gesturesByTouch touch.identifier = none) ∧
    (GestureCache.touchesChanged envTrivial rcEmpty .topTouchEnd evS
        gcEmpty).toOption = none :=
  ⟨rfl, ⟨⟨1, 5⟩, List.mem_cons_self _ _, rfl⟩,
    untrackedTouchCrashesBatch envTrivial rcEmpty .topTouchEnd evS gcEmpty
      rfl ⟨⟨1, 5⟩, List.mem_cons_self _ _, rfl⟩⟩

/-- C9: over any well-formed cache state, a successful batch (i) removes
no gesture from `activeGestures` when the batch is not end-like, (ii) on an
end-like batch, every gesture dropped from `activeGestures` ends with zero
active touches recorded in its history and its target erased from
`gesturesByTarget`, and (iii) on an end-like batch every surviving changed
gesture still has a non-zero active-touch count — removal happens exactly
when the history reports zero active touches during an end-like pass.
(The witness runs the one-touch start-then-end lifecycle and checks the
gesture vanishes from all three indices.) -/
theorem gestureRemovedExactlyWhenZeroActive :
    ∀ (env : Env) (rc : RCState) (t : TopLevelType) (ev : NativeEvent)
      (s : GCState) (evs : List GCEvent) (s' : GCState),
    GCWF s →
    GestureCache.touchesChanged env rc t ev s = .ok (evs, s') →
    ((isEndish t = false →
        ∀ gid ∈ s.activeGestures, gid ∈ s'.activeGestures) ∧
     (isEndish t = true → ∀ gid ∈ s.activeGestures,
        gid ∉ s'.activeGestures →
        (look s'.gestures gid).map
          (fun g => (g.touchHistory.numberActiveTouches,
            look s'.gesturesByTarget g.target)) = some (0, none)) ∧
     (isEndish t = true → ∀ gid, gid ∈ s'.activeGestures →
        ∀ g, look s'.gestures gid = some g → g.changedTouches ≠ [] →
        g.touchHistory.numberActiveTouches ≠ 0)) := by
  intro env rc t ev s evs s' hwf h
  obtain ⟨s₁, s₂, hf, hd, hr⟩ := touchesChanged_inv env rc t ev s evs s' h
  have hwf₁ : GCWF s₁ := firstLoop_wf env rc t _ _ _ (clearChanged_wf s hwf) hf
  have hwf₂ : GCWF s₂ := by
    by_cases hend : isEndish t = true
    · rw [if_pos hend] at hd
      exact detachLoop_wf _ _ _ hwf₁ hd
    · rw [if_neg hend] at hd
      injection hd with hd
      rwa [← hd]
  have hmem₂ : ∀ gid ∈ s.activeGestures, gid ∈ s₂.activeGestures := by
    intro gid hg
    have h₁ : gid ∈ s₁.activeGestures :=
      firstLoop_mem env rc t _ _ _ hf gid
        (by rw [clearChanged_activeGestures]; exact hg)
    by_cases hend : isEndish t = true
    · rw [if_pos hend] at hd
      rw [(detachLoop_activeGestures _ _ _ hd).1]
      exact h₁
    · rw [if_neg hend] at hd
      injection hd with hd
      rw [← hd]
      exact h₁
  have hsnod₂ : s₂.activeGestures.Nodup :=
    hwf₂.1.imp (fun hlt => Nat.ne_of_lt hlt)
  have hnodrev : s₂.activeGestures.reverse.Nodup :=
    List.nodup_reverse.mpr hsnod₂
  have hs' : s' = (GestureCache.resultLoop t ev
      s₂.activeGestures.reverse s₂).2 := by rw [hr]
  refine ⟨?_, ?_, ?_⟩
  · intro hend gid hg
    rw [hs', resultLoop_active_nonend t ev hend]
    exact hmem₂ gid hg
  · intro hend gid hg hnot
    rw [hs'] at hnot ⊢
    exact resultLoop_removed_zero t ev hend s₂.activeGestures.reverse s₂
      hnodrev gid (hmem₂ gid hg) hnot
  · intro hend gid hsurv g hlook hne
    rw [hs'] at hsurv hlook
    have hin : gid ∈ s₂.activeGestures.reverse :=
      List.mem_reverse.mpr
        (resultLoop_active_subset t ev s₂.activeGestures.reverse s₂ gid hsurv)
    exact resultLoop_survivor_nonzero t ev hend s₂.activeGestures.reverse s₂
      hnodrev hsnod₂ gid hin hsurv g hlook hne

theorem gestureRemovedExactlyWhenZeroActiveWitness :
    GCWF gcAfterStart ∧ isEndish .topTouchEnd = true ∧
    0 ∈ gcAfterStart.activeGestures ∧ 0 ∉ gcAfterEnd.activeGestures ∧
    (look gcAfterEnd.gestures 0).map
      (fun g => (g.touchHistory.numberActiveTouches,
        look gcAfterEnd.gesturesByTarget g.target)) = some (0, none) ∧
    gcAfterEnd.activeGestures = [] ∧ gcAfterEnd.gesturesByTouch = [] ∧
    gcAfterEnd.gesturesByTarget = [] := by
  refine ⟨⟨by decide, by decide⟩, rfl, by decide, by decide, ?_, by decide,
    by decide, by decide⟩
  exact (gestureRemovedExactlyWhenZeroActive envTrivial rcEmpty .topTouchEnd
      evS gcAfterStart endRun.1 endRun.2 ⟨by decide, by decide⟩ rfl).2.1
    rfl 0 (by decide) (by decide)
